import Mathlib

/-!
Shallow embedding of the virtual-memory simulator in `src/pa2.c`:
per-process two-level page tables, a pool of physical frames with
reference counts (`mapcounts`), demand allocation (`alloc_page`),
deallocation (`free_page`), copy-on-write fault handling
(`handle_page_fault`) and process switch/fork (`switch_process`).

Modelling conventions:
- machine integers become `Nat` (no arithmetic here ever overflows,
  reference counts only move by one and indices stay tiny);
- the C arrays `mapcounts[]` and the PTE tables become functions
  `Nat → _` updated pointwise, directory slots become `Option` values
  (a `NULL` pointer is `none`);
- memory returned by `malloc` has indeterminate contents in C.  The
  fork branch of `switch_process` makes this explicit: it takes the
  indeterminate contents of the malloc'd child outer table (`garbPT`)
  and of each freshly malloc'd child inner table (`garb i`) as
  parameters, so nothing is assumed about locations the fork never
  writes.  The single fresh inner table of `alloc_page` is modelled
  zero-initialised; the claims about `alloc_page` only concern the one
  entry it explicitly writes;
- a C execution that dereferences a `NULL` pointer is outside the
  function's domain; such an operation returns `none`
  (only `free_page` can do this);
- the ready queue `processes` is modelled by the list of process
  indices in forward-traversal order.  The found-branch of
  `switch_process` assigns `processes.next = p->list.next` and
  `processes.prev = p->list.prev`, after which a forward traversal from
  the head reaches exactly the elements situated after `p`; the model
  keeps that forward-traversal view.
-/

/-- Modelled from the spec: the header `vm.h` that defines the table
geometry and frame-pool size is not part of the repository; the spec
only says both tables and the frame pool are fixed-size.  Entries per
page table (inner and outer; the C code uses `NR_PTES_PER_PAGE` for
both loop bounds). -/
def NR_PTES_PER_PAGE : Nat := 16

/-- Modelled from the spec: number of physical page frames in the pool
(`vm.h` is not in the repository). -/
def NR_PAGEFRAMES : Nat := 128

/-- Modelled from the spec: access-mode flag for read (`vm.h` is not in
the repository). -/
def RW_READ : Nat := 1

/-- Modelled from the spec: access-mode flag for write (`vm.h` is not
in the repository). -/
def RW_WRITE : Nat := 2

/-- Pointwise update of a function, modelling an array store. -/
def updFn {α : Type} (f : Nat → α) (i : Nat) (v : α) : Nat → α :=
  fun j => if j = i then v else f j

/-- `mapcounts[i]++`. -/
def bump (mc : Nat → Nat) (i : Nat) : Nat → Nat :=
  fun f => if f = i then mc f + 1 else mc f

/-- A page-table entry (`struct pte`): valid bit, writable bit, page
frame number, and the `private` field used to remember the access mode
the page was allocated with (`private` is a Lean keyword, hence
`priv`). -/
structure PTE where
  valid : Bool
  writable : Bool
  pfn : Nat
  priv : Nat
deriving Repr, DecidableEq

/-- The all-zero PTE (cleared / zero-initialised entry). -/
def defaultPTE : PTE := ⟨false, false, 0, 0⟩

/-- `struct pte_directory`: an array of PTEs, as a function. -/
abbrev PteDir : Type := Nat → PTE

/-- `struct pagetable`: outer directory of optional inner tables
(`NULL` slot = `none`). -/
abbrev Pagetable : Type := Nat → Option PteDir

/-- An inner table fresh from `malloc`, modelled zero-initialised. -/
def emptyDir : PteDir := fun _ => defaultPTE

/-- A page table with every outer slot `NULL`. -/
def emptyPagetable : Pagetable := fun _ => none

/-- `struct process`: pid and its page table (scheduler linkage is
modelled by the queue of the global state). -/
structure Process where
  pid : Nat
  pagetable : Pagetable

/-- Fallback process for out-of-range indexing (never reached on the
C-reachable paths, where `current` is always a live process). -/
def emptyProcess : Process := ⟨0, emptyPagetable⟩

/-- The global state of the simulator: the frame pool `mapcounts`, all
extant processes, the index of `current`, the page-table base register
`ptbr` (as the index of the process owning the active table, `none` for
an unset register) and the ready queue in forward-traversal order. -/
structure VMState where
  mapcounts : Nat → Nat
  procs : List Process
  cur : Nat
  ptbr : Option Nat
  queue : List Nat

/-- The process `current` points at. -/
def curProc (s : VMState) : Process := s.procs.getD s.cur emptyProcess

/-- The PTE the current process holds for `vpn` (the cleared PTE if the
directory slot is absent). -/
def pteOf (s : VMState) (vpn : Nat) : PTE :=
  match (curProc s).pagetable (vpn / NR_PTES_PER_PAGE) with
  | none => defaultPTE
  | some d => d (vpn % NR_PTES_PER_PAGE)

/-- The `for (i = 0; i < n; i++) if (mapcounts[i] == 0)` search: the
smallest frame index below `n` with reference count 0. -/
def findFreeBelow (mc : Nat → Nat) : Nat → Option Nat
  | 0 => none
  | n + 1 =>
    match findFreeBelow mc n with
    | some i => some i
    | none => if mc n = 0 then some n else none

/-- Whether some entry with index below `n` is valid (the emptiness
scan at the end of `free_page`). -/
def anyValid (d : PteDir) : Nat → Bool
  | 0 => false
  | n + 1 => anyValid d n || (d n).valid

/-- Number of valid PTEs with frame field `f` among the entries of `d`
with index below `n`. -/
def countDirBelow (d : PteDir) (f : Nat) : Nat → Nat
  | 0 => 0
  | j + 1 =>
    countDirBelow d f j + (if (d j).valid = true ∧ (d j).pfn = f then 1 else 0)

/-- Number of valid PTEs with frame field `f` in a page table, over the
outer slots with index below `n`. -/
def countPTBelow (pt : Pagetable) (f : Nat) : Nat → Nat
  | 0 => 0
  | i + 1 =>
    countPTBelow pt f i +
      (match pt i with
       | none => 0
       | some d => countDirBelow d f NR_PTES_PER_PAGE)

/-- Number of valid PTEs across all extant processes whose frame field
equals `f`. -/
def refCount (s : VMState) (f : Nat) : Nat :=
  (s.procs.map (fun p => countPTBelow p.pagetable f NR_PTES_PER_PAGE)).sum

/-- `alloc_page(vpn, rw)` from `src/pa2.c`: ensure the inner table for
`vpn`'s directory index exists (created tables persist even when the
pool is exhausted), find the smallest free frame, increment its count
and populate the PTE.  Returns the new state and the allocated frame
(`none` for the `-1` failure sentinel). -/
def alloc_page (s : VMState) (vpn rw : Nat) : VMState × Option Nat :=
  let pd_index := vpn / NR_PTES_PER_PAGE
  let pte_index := vpn % NR_PTES_PER_PAGE
  let p := curProc s
  let pt : Pagetable :=
    match p.pagetable pd_index with
    | none => updFn p.pagetable pd_index (some emptyDir)
    | some _ => p.pagetable
  match findFreeBelow s.mapcounts NR_PAGEFRAMES with
  | none =>
    ({ s with procs := s.procs.set s.cur { p with pagetable := pt } }, none)
  | some i =>
    let d := (pt pd_index).getD emptyDir
    let d2 := updFn d pte_index
      { valid := true
        writable := rw == (RW_READ ||| RW_WRITE)
        pfn := i
        priv := rw }
    let p2 : Process := { p with pagetable := updFn pt pd_index (some d2) }
    ({ s with mapcounts := bump s.mapcounts i, procs := s.procs.set s.cur p2 },
     some i)

/-- `free_page(vpn)` from `src/pa2.c`: the PTE is read through the
directory slot without a `NULL` check, so an absent slot is a
null-pointer dereference (`none`).  If the stored frame's count is 0
the function returns at once; otherwise it decrements the count, clears
the PTE and, when no entry of the inner table is valid any more, frees
the inner table and clears the directory slot. -/
def free_page (s : VMState) (vpn : Nat) : Option VMState :=
  let pd_index := vpn / NR_PTES_PER_PAGE
  let pte_index := vpn % NR_PTES_PER_PAGE
  let p := curProc s
  match p.pagetable pd_index with
  | none => none
  | some d =>
    let pfn := (d pte_index).pfn
    if s.mapcounts pfn = 0 then some s
    else
      let mc2 := fun f => if f = pfn then s.mapcounts f - 1 else s.mapcounts f
      let d2 := updFn d pte_index defaultPTE
      let pt2 : Pagetable :=
        if anyValid d2 NR_PTES_PER_PAGE then
          updFn p.pagetable pd_index (some d2)
        else
          updFn p.pagetable pd_index none
      some { s with
              mapcounts := mc2
              procs := s.procs.set s.cur { p with pagetable := pt2 } }

/-- `handle_page_fault(vpn, rw)` from `src/pa2.c`.  Walks the table
rooted at `ptbr`; an unset register, absent directory slot or invalid
PTE is an unhandled fault, a valid PTE whose `private` mode equals
`RW_READ` is a protection violation.  Otherwise COW resolution: with
exactly one mapping on the frame the PTE is made writable in place;
with more than one, the smallest free frame is taken, its count
incremented and the PTE rewritten to it (the old frame's count is not
touched); with no free frame, or a reference count of 0, the fault is
unhandled.  The access mode `rw` is never consulted. -/
def handle_page_fault (s : VMState) (vpn rw : Nat) : VMState × Bool :=
  let pd_index := vpn / NR_PTES_PER_PAGE
  let pte_index := vpn % NR_PTES_PER_PAGE
  match s.ptbr with
  | none => (s, false)
  | some ti =>
    let p := s.procs.getD ti emptyProcess
    match p.pagetable pd_index with
    | none => (s, false)
    | some d =>
      let pte := d pte_index
      if pte.valid = false then (s, false)
      else if pte.priv = RW_READ then (s, false)
      else
        let pfn := pte.pfn
        let number_of_process := s.mapcounts pfn
        if number_of_process = 1 then
          let d2 := updFn d pte_index { pte with writable := true }
          let p2 := { p with pagetable := updFn p.pagetable pd_index (some d2) }
          ({ s with procs := s.procs.set ti p2 }, true)
        else if number_of_process > 1 then
          match findFreeBelow s.mapcounts NR_PAGEFRAMES with
          | none => (s, false)
          | some i =>
            let d2 := updFn d pte_index { pte with writable := true, pfn := i }
            let p2 := { p with pagetable := updFn p.pagetable pd_index (some d2) }
            ({ s with
                mapcounts := bump s.mapcounts i
                procs := s.procs.set ti p2 }, true)
        else (s, false)

/-- The `list_for_each_entry` search of `switch_process`: the first
queue element whose process has the requested pid, together with the
rest of the queue situated after it (after the found-branch's pointer
assignments a forward traversal of `processes` reaches exactly those
elements). -/
def findInQueue (procs : List Process) (pid : Nat) : List Nat → Option (Nat × List Nat)
  | [] => none
  | q :: rest =>
    if (procs.getD q emptyProcess).pid = pid then some (q, rest)
    else findInQueue procs pid rest

/-- The inner `for (j ...)` loop of the fork branch of
`switch_process`, processing entries `0, …, n-1` of one directory in
order: every valid parent entry has its writable bit cleared, is copied
into the child with `valid := true`, `writable := false`, the same
`pfn` and `private`, and the shared frame's count is incremented. -/
def forkInner (mc : Nat → Nat) (od nd : PteDir) : Nat → (Nat → Nat) × PteDir × PteDir
  | 0 => (mc, od, nd)
  | j + 1 =>
    let r := forkInner mc od nd j
    let op := r.2.1 j
    if op.valid then
      (bump r.1 op.pfn,
       updFn r.2.1 j { op with writable := false },
       updFn r.2.2 j { valid := true, writable := false, pfn := op.pfn, priv := op.priv })
    else r

/-- The outer `for (i ...)` loop of the fork branch of
`switch_process`, processing directory slots `0, …, n-1` in order: a
present parent slot `i` gets a child table whose initial contents are
the indeterminate malloc'd memory `garb i`, filled by `forkInner`
(which overwrites exactly the entries that are valid in the parent);
absent slots are skipped, leaving the child outer table `npt`
untouched there. -/
def forkOuter (mc : Nat → Nat) (opt npt : Pagetable) (garb : Nat → PteDir) :
    Nat → (Nat → Nat) × Pagetable × Pagetable
  | 0 => (mc, opt, npt)
  | i + 1 =>
    let r := forkOuter mc opt npt garb i
    match r.2.1 i with
    | none => r
    | some d =>
      let ri := forkInner r.1 d (garb i) NR_PTES_PER_PAGE
      (ri.1, updFn r.2.1 i (some ri.2.1), updFn r.2.2 i (some ri.2.2))

/-- `switch_process(pid)` from `src/pa2.c`.  If a process with `pid` is
in the ready queue: `current` and `ptbr` move to it, and the pointer
assignments to the list head leave exactly the queue elements after it
reachable by forward traversal.  Otherwise the current process is
forked: its page table is deep-copied with COW sharing (`forkOuter`),
and the child is appended to the queue and becomes `current`/`ptbr`.
The C code mallocs the child `struct process` and each child
`struct pte_directory` without initialising them and then writes only
the slots with a present parent directory and the entries with a valid
parent PTE; the indeterminate contents of that malloc'd memory enter
as the parameters `garbPT` (the child's outer table) and `garb i` (the
child's inner table for slot `i`). -/
def switch_process (s : VMState) (pid : Nat) (garbPT : Pagetable)
    (garb : Nat → PteDir) : VMState :=
  match findInQueue s.procs pid s.queue with
  | some qr => { s with cur := qr.1, ptbr := some qr.1, queue := qr.2 }
  | none =>
    let parent := curProc s
    let r := forkOuter s.mapcounts parent.pagetable garbPT garb NR_PTES_PER_PAGE
    let child : Process := { pid := pid, pagetable := r.2.2 }
    let idx := s.procs.length
    { mapcounts := r.1
      procs := (s.procs.set s.cur { parent with pagetable := r.2.1 }) ++ [child]
      cur := idx
      ptbr := some idx
      queue := s.queue ++ [idx] }

/-- Modelled from the spec: the framework that sets up the initial
system (one live process, empty tables, all frames free) is not in the
repository.  The spec's fork-then-write scenario switches back to the
parent afterwards, so the initial process must be reachable through the
ready queue. -/
def initState : VMState :=
  { mapcounts := fun _ => 0
    procs := [⟨0, emptyPagetable⟩]
    cur := 0
    ptbr := some 0
    queue := [0] }

/-- Running `k` successive allocations (all at vpn 0, read-write) from
the initial, fully free pool. -/
def allocRun : Nat → VMState
  | 0 => initState
  | k + 1 => (alloc_page (allocRun k) 0 (RW_READ ||| RW_WRITE)).1

/-- The state after the reference-count-invariant-breaking trace:
`alloc_page(0, RW_READ|RW_WRITE)`, `switch_process(1)` (a fork) and a
write fault on vpn 0 handled for the child.  The fork's indeterminate
malloc contents are fixed to zeroed memory: this is one possible
execution, and the violated quantities (the reference counts and the
valid PTEs of the two explicitly written entries) are the same in
every execution — the missing decrement in the COW copy branch does
not depend on the malloc'd contents. -/
def c1Trace : VMState :=
  (handle_page_fault
    (switch_process (alloc_page initState 0 (RW_READ ||| RW_WRITE)).1 1
      emptyPagetable (fun _ => emptyDir))
    0 RW_WRITE).1

/-- The states of the spec's COW fork-then-write scenario: A (pid 0)
allocates vpn 0 read-write, forks B (pid 1), A takes a write fault on
vpn 0, then B takes a write fault on vpn 0.  As in `c1Trace`, the
fork's indeterminate malloc contents are fixed to zeroed memory — one
possible execution, in which every field the scenario observes is
explicitly written. -/
def c2AfterFork : VMState :=
  switch_process (alloc_page initState 0 (RW_READ ||| RW_WRITE)).1 1
    emptyPagetable (fun _ => emptyDir)

/-- Scenario state after switching back to A (the found branch of
`switch_process` never reaches the malloc'd memory parameters). -/
def c2AtA : VMState :=
  switch_process c2AfterFork 0 emptyPagetable (fun _ => emptyDir)

/-- Scenario state after A's write fault has been handled. -/
def c2AfterAFault : VMState := (handle_page_fault c2AtA 0 RW_WRITE).1

/-- Scenario state after switching to B. -/
def c2AtB : VMState :=
  switch_process c2AfterAFault 1 emptyPagetable (fun _ => emptyDir)

/-- Scenario state after B's write fault has been handled. -/
def c2AfterBFault : VMState := (handle_page_fault c2AtB 0 RW_WRITE).1

/-- Concrete state for the C7 witness: one read-only mapping of vpn 0
at frame 0. -/
def w7dir : PteDir :=
  updFn emptyDir 0 { valid := true, writable := false, pfn := 0, priv := RW_READ }

/-- Concrete state for the C7 witness. -/
def w7s : VMState :=
  { mapcounts := fun f => if f = 0 then 1 else 0
    procs := [⟨0, updFn emptyPagetable 0 (some w7dir)⟩]
    cur := 0
    ptbr := some 0
    queue := [0] }

/-- Concrete state for the C8 witness: an inner table exists for
directory slot 0 but its PTE for vpn 5 stores frame 0, whose count is
0. -/
def w8s : VMState :=
  { mapcounts := fun _ => 0
    procs := [⟨0, updFn emptyPagetable 0 (some emptyDir)⟩]
    cur := 0
    ptbr := some 0
    queue := [0] }

/-- Concrete state for the C10 witness: the slot for vpn 0 is present,
the PTE is the cleared (invalid) entry storing frame 0, and frame 0 is
held by some other mapping (count 1). -/
def w10s : VMState :=
  { mapcounts := fun f => if f = 0 then 1 else 0
    procs := [⟨0, updFn emptyPagetable 0 (some emptyDir)⟩]
    cur := 0
    ptbr := some 0
    queue := [0] }

/-- Concrete state for the C3 witness: one read-write mapping of vpn 0
at frame 0, exclusively owned (count 1). -/
def w3dir : PteDir :=
  updFn emptyDir 0
    { valid := true, writable := false, pfn := 0, priv := RW_READ ||| RW_WRITE }

/-- Concrete state for the C3 witness. -/
def w3s : VMState :=
  { mapcounts := fun f => if f = 0 then 1 else 0
    procs := [⟨0, updFn emptyPagetable 0 (some w3dir)⟩]
    cur := 0
    ptbr := some 0
    queue := [0] }

/-- Inner table for the C4 witness: one read-write, currently writable
mapping of vpn 0 at frame 0. -/
def w4dir : PteDir :=
  updFn emptyDir 0
    { valid := true, writable := true, pfn := 0, priv := RW_READ ||| RW_WRITE }

/-- Concrete state for the C4 witness. -/
def w4s : VMState :=
  { mapcounts := fun f => if f = 0 then 1 else 0
    procs := [⟨0, updFn emptyPagetable 0 (some w4dir)⟩]
    cur := 0
    ptbr := some 0
    queue := [0] }

/-- Indeterminate contents of the malloc'd child inner tables for the
C4 counterexample and witness: garbage that happens to look like a
valid writable mapping of frame 7. -/
def w4garbDir : PteDir :=
  updFn emptyDir 0
    { valid := true, writable := true, pfn := 7, priv := RW_READ ||| RW_WRITE }

/-- Indeterminate contents of the malloc'd child outer table for the
C4 counterexample and witness: garbage that is a non-null pointer at
slot 1, where the parent's slot is null. -/
def w4garbPT : Pagetable := fun i => if i = 1 then some w4garbDir else none

theorem findFreeBelow_lt_and_zero (mc : Nat → Nat) :
    ∀ n i, findFreeBelow mc n = some i → i < n ∧ mc i = 0 := by
  intro n
  induction n with
  | zero => intro i h; simp [findFreeBelow] at h
  | succ n ih =>
    intro i h
    rw [findFreeBelow] at h
    cases hn : findFreeBelow mc n with
    | some k =>
      rw [hn] at h
      cases h
      exact ⟨Nat.lt_succ_of_lt (ih i hn).1, (ih i hn).2⟩
    | none =>
      rw [hn] at h
      by_cases hz : mc n = 0
      · rw [if_pos hz] at h
        cases h
        exact ⟨Nat.lt_succ_self n, hz⟩
      · rw [if_neg hz] at h
        cases h

theorem findFreeBelow_none_iff (mc : Nat → Nat) :
    ∀ n, findFreeBelow mc n = none ↔ ∀ j < n, mc j ≠ 0 := by
  intro n
  induction n with
  | zero => simp [findFreeBelow]
  | succ n ih =>
    rw [findFreeBelow]
    cases hn : findFreeBelow mc n with
    | some k =>
      simp only [reduceCtorEq, false_iff]
      intro hall
      have hk := findFreeBelow_lt_and_zero mc n k hn
      exact hall k (Nat.lt_succ_of_lt hk.1) hk.2
    | none =>
      by_cases hz : mc n = 0
      · rw [if_pos hz]
        simp only [reduceCtorEq, false_iff]
        intro hall
        exact hall n (Nat.lt_succ_self n) hz
      · rw [if_neg hz]
        simp only [true_iff]
        intro j hj
        rcases Nat.lt_succ_iff_lt_or_eq.mp hj with hj' | hj'
        · exact (ih.mp hn) j hj'
        · rw [hj']; exact hz

theorem findFreeBelow_min (mc : Nat → Nat) :
    ∀ n i, findFreeBelow mc n = some i → ∀ j < i, mc j ≠ 0 := by
  intro n
  induction n with
  | zero => intro i h; simp [findFreeBelow] at h
  | succ n ih =>
    intro i h
    rw [findFreeBelow] at h
    cases hn : findFreeBelow mc n with
    | some k =>
      rw [hn] at h
      cases h
      exact ih i hn
    | none =>
      rw [hn] at h
      by_cases hz : mc n = 0
      · rw [if_pos hz] at h
        cases h
        exact (findFreeBelow_none_iff mc n).mp hn
      · rw [if_neg hz] at h
        cases h

theorem findFreeBelow_eq_some (mc : Nat → Nat) :
    ∀ n i, i < n → mc i = 0 → (∀ j < i, mc j ≠ 0) →
      findFreeBelow mc n = some i := by
  intro n
  induction n with
  | zero => intro i h; omega
  | succ n ih =>
    intro i h1 h2 h3
    rcases Nat.lt_succ_iff_lt_or_eq.mp h1 with h1' | h1'
    · rw [findFreeBelow, ih i h1' h2 h3]
    · subst h1'
      rw [findFreeBelow, (findFreeBelow_none_iff mc i).mpr h3, if_pos h2]

theorem alloc_page_snd (s : VMState) (vpn rw : Nat) :
    (alloc_page s vpn rw).2 = findFreeBelow s.mapcounts NR_PAGEFRAMES := by
  unfold alloc_page
  cases h : findFreeBelow s.mapcounts NR_PAGEFRAMES <;> simp

theorem alloc_page_mapcounts_some (s : VMState) (vpn rw i : Nat)
    (h : findFreeBelow s.mapcounts NR_PAGEFRAMES = some i) :
    (alloc_page s vpn rw).1.mapcounts = bump s.mapcounts i := by
  unfold alloc_page
  rw [h]

theorem allocRun_mapcounts :
    ∀ k, k ≤ NR_PAGEFRAMES →
      ∀ f, (allocRun k).mapcounts f = if f < k then 1 else 0 := by
  intro k
  induction k with
  | zero => intro _ f; simp [allocRun, initState]
  | succ k ih =>
    intro hk f
    have ih' := ih (Nat.le_of_succ_le hk)
    have hfind : findFreeBelow (allocRun k).mapcounts NR_PAGEFRAMES = some k := by
      apply findFreeBelow_eq_some
      · omega
      · rw [ih' k]; simp
      · intro j hj
        rw [ih' j, if_pos hj]
        omega
    rw [allocRun, alloc_page_mapcounts_some _ _ _ _ hfind, bump, ih' f]
    by_cases hfk : f = k
    · subst hfk; simp
    · simp only [if_neg hfk]
      by_cases hlt : f < k
      · rw [if_pos hlt, if_pos (Nat.lt_succ_of_lt hlt)]
      · rw [if_neg hlt, if_neg (by omega)]

theorem getD_set_self {α : Type} (l : List α) (i : Nat) (h : i < l.length)
    (a d : α) : (l.set i a).getD i d = a := by
  rw [List.getD_eq_getElem?_getD, List.getElem?_set_eq_of_lt a h]
  rfl

theorem getD_append_singleton {α : Type} (l : List α) (a d : α) :
    (l ++ [a]).getD l.length d = a := by
  simp [List.getD_eq_getElem?_getD, List.getElem?_append_right]

theorem getD_set_append {α : Type} (l : List α) (i : Nat) (h : i < l.length)
    (p a d : α) : ((l.set i p) ++ [a]).getD i d = p := by
  rw [List.getD_eq_getElem?_getD, List.getElem?_append_left (by simpa using h),
    List.getElem?_set_eq_of_lt _ (by simpa using h)]
  rfl

theorem alloc_page_pteOf (s : VMState) (vpn rw i : Nat)
    (hcur : s.cur < s.procs.length)
    (hf : findFreeBelow s.mapcounts NR_PAGEFRAMES = some i) :
    pteOf (alloc_page s vpn rw).1 vpn =
      { valid := true, writable := rw == (RW_READ ||| RW_WRITE)
        pfn := i, priv := rw } := by
  unfold alloc_page
  rw [hf]
  unfold pteOf curProc
  simp only
  rw [getD_set_self _ _ (by simpa using hcur)]
  simp [updFn]

/-- C6: `alloc_page` always selects the lowest-indexed frame whose
reference count is 0; from the initial (empty) pool the `k`-th of
`NR_PAGEFRAMES` successive allocations returns frame `k`, and one more
allocation returns the failure sentinel. -/
theorem alloc_page_smallest_frame :
    (∀ (s : VMState) (vpn rw i : Nat),
        (alloc_page s vpn rw).2 = some i →
        s.mapcounts i = 0 ∧ ∀ j < i, s.mapcounts j ≠ 0) ∧
    (∀ k, k < NR_PAGEFRAMES →
        (alloc_page (allocRun k) 0 (RW_READ ||| RW_WRITE)).2 = some k) ∧
    (alloc_page (allocRun NR_PAGEFRAMES) 0 (RW_READ ||| RW_WRITE)).2 = none := by
  refine ⟨?_, ?_, ?_⟩
  · intro s vpn rw i h
    rw [alloc_page_snd] at h
    exact ⟨(findFreeBelow_lt_and_zero _ _ _ h).2, findFreeBelow_min _ _ _ h⟩
  · intro k hk
    rw [alloc_page_snd]
    apply findFreeBelow_eq_some
    · exact hk
    · rw [allocRun_mapcounts k (le_of_lt hk) k]
      simp
    · intro j hj
      rw [allocRun_mapcounts k (le_of_lt hk) j, if_pos hj]
      omega
  · rw [alloc_page_snd]
    apply (findFreeBelow_none_iff _ _).mpr
    intro j hj
    rw [allocRun_mapcounts NR_PAGEFRAMES le_rfl j, if_pos hj]
    omega

/-- Witness for C6 at concrete inputs: the very first allocation, and
the fourth allocation of a run, both pick the least free frame. -/
theorem alloc_page_smallest_frame_witness :
    ((alloc_page initState 3 RW_READ).2 = some 0 ∧
      (initState.mapcounts 0 = 0 ∧ ∀ j < 0, initState.mapcounts j ≠ 0)) ∧
    (alloc_page (allocRun 3) 0 (RW_READ ||| RW_WRITE)).2 = some 3 :=
  ⟨⟨by decide, alloc_page_smallest_frame.1 initState 3 RW_READ 0 (by decide)⟩,
    alloc_page_smallest_frame.2.1 3 (by decide)⟩

/-- C5 (counterexample to the claim as stated): allocating with the
write-only mode `RW_WRITE` — a mode that includes write — populates the
PTE with `writable = false`, because the code tests
`rw == (RW_READ | RW_WRITE)` rather than the write bit. -/
theorem alloc_page_write_only_counterexample :
    (alloc_page initState 0 RW_WRITE).2 = some 0 ∧
    (pteOf (alloc_page initState 0 RW_WRITE).1 0).writable = false ∧
    ¬ ((pteOf (alloc_page initState 0 RW_WRITE).1 0).writable = true ↔
        RW_WRITE &&& RW_WRITE ≠ 0) := by
  decide

/-- C5 (amended): on success `alloc_page(vpn, rw)` increments the
selected frame's reference count and sets the PTE to valid, frame = the
selected frame, original-permission tag = `rw`, and writable = true iff
`rw` is exactly `RW_READ ||| RW_WRITE` (so a write-only request is
populated non-writable). -/
theorem alloc_page_populates (s : VMState) (vpn rw i : Nat)
    (hcur : s.cur < s.procs.length)
    (h : (alloc_page s vpn rw).2 = some i) :
    (alloc_page s vpn rw).1.mapcounts i = s.mapcounts i + 1 ∧
    pteOf (alloc_page s vpn rw).1 vpn =
      { valid := true, writable := rw == (RW_READ ||| RW_WRITE)
        pfn := i, priv := rw } ∧
    ((pteOf (alloc_page s vpn rw).1 vpn).writable = true ↔
      rw = (RW_READ ||| RW_WRITE)) := by
  have hf : findFreeBelow s.mapcounts NR_PAGEFRAMES = some i := by
    rw [← alloc_page_snd s vpn rw]
    exact h
  refine ⟨?_, alloc_page_pteOf s vpn rw i hcur hf, ?_⟩
  · rw [alloc_page_mapcounts_some s vpn rw i hf, bump]
    simp
  · rw [alloc_page_pteOf s vpn rw i hcur hf]
    simp

/-- Witness for C5 (amended) at a write-only allocation from the
initial state. -/
theorem alloc_page_populates_witness :
    (initState.cur < initState.procs.length ∧
      (alloc_page initState 0 RW_WRITE).2 = some 0) ∧
    ((alloc_page initState 0 RW_WRITE).1.mapcounts 0 =
        initState.mapcounts 0 + 1 ∧
      pteOf (alloc_page initState 0 RW_WRITE).1 0 =
        { valid := true, writable := RW_WRITE == (RW_READ ||| RW_WRITE)
          pfn := 0, priv := RW_WRITE } ∧
      ((pteOf (alloc_page initState 0 RW_WRITE).1 0).writable = true ↔
        RW_WRITE = (RW_READ ||| RW_WRITE))) :=
  ⟨⟨by decide, by decide⟩,
    alloc_page_populates initState 0 RW_WRITE 0 (by decide) (by decide)⟩

/-- C7: a write fault on a vpn whose PTE is valid with original
permission `RW_READ` is a protection violation: `handle_page_fault`
returns `false` and the state — every PTE field and every reference
count — is returned unchanged. -/
theorem handle_page_fault_protection (s : VMState) (vpn ti : Nat) (d : PteDir)
    (h1 : s.ptbr = some ti)
    (h2 : (s.procs.getD ti emptyProcess).pagetable (vpn / NR_PTES_PER_PAGE) = some d)
    (h3 : (d (vpn % NR_PTES_PER_PAGE)).valid = true)
    (h4 : (d (vpn % NR_PTES_PER_PAGE)).priv = RW_READ) :
    handle_page_fault s vpn RW_WRITE = (s, false) := by
  have h2' : (s.procs[ti]?.getD emptyProcess).pagetable
      (vpn / NR_PTES_PER_PAGE) = some d := by
    simpa [List.getD_eq_getElem?_getD] using h2
  simp [handle_page_fault, h1, h2', h3, h4]

/-- Witness for C7: the write fault on the read-only page of `w7s` is
denied and changes nothing. -/
theorem handle_page_fault_protection_witness :
    (w7s.ptbr = some 0 ∧
      (w7s.procs.getD 0 emptyProcess).pagetable (0 / NR_PTES_PER_PAGE) = some w7dir ∧
      (w7dir (0 % NR_PTES_PER_PAGE)).valid = true ∧
      (w7dir (0 % NR_PTES_PER_PAGE)).priv = RW_READ) ∧
    handle_page_fault w7s 0 RW_WRITE = (w7s, false) :=
  ⟨⟨rfl, rfl, rfl, rfl⟩,
    handle_page_fault_protection w7s 0 0 w7dir rfl rfl rfl rfl⟩

/-- C8: freeing a vpn whose PTE's stored frame has reference count 0 is
a no-op — the count is not decremented below 0 and the PTE, inner
table, and all reference counts are unchanged. -/
theorem free_page_degenerate (s : VMState) (vpn : Nat) (d : PteDir)
    (h1 : (curProc s).pagetable (vpn / NR_PTES_PER_PAGE) = some d)
    (h2 : s.mapcounts ((d (vpn % NR_PTES_PER_PAGE)).pfn) = 0) :
    free_page s vpn = some s := by
  simp [free_page, h1, h2]

/-- Witness for C8: the degenerate free of vpn 5 in `w8s` is a no-op. -/
theorem free_page_degenerate_witness :
    ((curProc w8s).pagetable (5 / NR_PTES_PER_PAGE) = some emptyDir ∧
      w8s.mapcounts ((emptyDir (5 % NR_PTES_PER_PAGE)).pfn) = 0) ∧
    free_page w8s 5 = some w8s :=
  ⟨⟨rfl, rfl⟩, free_page_degenerate w8s 5 emptyDir rfl rfl⟩

/-- C9: `free_page` reads the PTE through the directory slot without a
presence check; when the slot for `vpn` is absent the C code
dereferences a null pointer, so the call lies outside the function's
domain (`none` in this model) instead of being a no-op. -/
theorem free_page_absent_slot (s : VMState) (vpn : Nat)
    (h : (curProc s).pagetable (vpn / NR_PTES_PER_PAGE) = none) :
    free_page s vpn = none := by
  simp [free_page, h]

/-- Witness for C9: freeing any vpn in the initial state (no directory
slot present) is a null-pointer dereference. -/
theorem free_page_absent_slot_witness :
    (curProc initState).pagetable (0 / NR_PTES_PER_PAGE) = none ∧
    free_page initState 0 = none :=
  ⟨rfl, free_page_absent_slot initState 0 rfl⟩

theorem pteOf_set_cur (mc : Nat → Nat) (l : List Process) (i : Nat)
    (ob : Option Nat) (q : List Nat) (p : Process) (vpn : Nat)
    (h : i < l.length) :
    pteOf { mapcounts := mc, procs := l.set i p, cur := i, ptbr := ob,
            queue := q } vpn =
      match p.pagetable (vpn / NR_PTES_PER_PAGE) with
      | none => defaultPTE
      | some d => d (vpn % NR_PTES_PER_PAGE) := by
  unfold pteOf curProc
  simp only
  rw [getD_set_self _ _ h]

/-- C10: `free_page` never inspects the valid bit — for a present slot
whose PTE is invalid, if the stored frame's count is nonzero the count
is decremented anyway (stealing a reference from whatever mapping owns
that frame) and the PTE is re-cleared. -/
theorem free_page_ignores_valid (s : VMState) (vpn : Nat) (d : PteDir)
    (hcur : s.cur < s.procs.length)
    (h1 : (curProc s).pagetable (vpn / NR_PTES_PER_PAGE) = some d)
    (h2 : (d (vpn % NR_PTES_PER_PAGE)).valid = false)
    (h3 : s.mapcounts ((d (vpn % NR_PTES_PER_PAGE)).pfn) ≠ 0) :
    ∃ s2, free_page s vpn = some s2 ∧
      s2.mapcounts ((d (vpn % NR_PTES_PER_PAGE)).pfn) =
        s.mapcounts ((d (vpn % NR_PTES_PER_PAGE)).pfn) - 1 ∧
      (∀ f, f ≠ (d (vpn % NR_PTES_PER_PAGE)).pfn →
        s2.mapcounts f = s.mapcounts f) ∧
      pteOf s2 vpn = defaultPTE := by
  have hstep : free_page s vpn = some
      { s with
          mapcounts := fun f =>
            if f = (d (vpn % NR_PTES_PER_PAGE)).pfn then s.mapcounts f - 1
            else s.mapcounts f
          procs := s.procs.set s.cur
            { curProc s with
                pagetable :=
                  if anyValid (updFn d (vpn % NR_PTES_PER_PAGE) defaultPTE)
                      NR_PTES_PER_PAGE then
                    updFn (curProc s).pagetable (vpn / NR_PTES_PER_PAGE)
                      (some (updFn d (vpn % NR_PTES_PER_PAGE) defaultPTE))
                  else
                    updFn (curProc s).pagetable (vpn / NR_PTES_PER_PAGE) none } } := by
    simp [free_page, h1, h3]
  refine ⟨_, hstep, ?_, ?_, ?_⟩
  · simp
  · intro f hf
    simp [if_neg hf]
  · rw [pteOf_set_cur _ _ _ _ _ _ _ hcur]
    by_cases ha : anyValid (updFn d (vpn % NR_PTES_PER_PAGE) defaultPTE)
      NR_PTES_PER_PAGE = true
    · simp [ha, updFn]
    · simp only [Bool.not_eq_true] at ha
      simp [ha, updFn]

/-- Witness for C10: the invalid-PTE free in `w10s` still decrements
frame 0's reference count. -/
theorem free_page_ignores_valid_witness :
    (w10s.cur < w10s.procs.length ∧
      (curProc w10s).pagetable (0 / NR_PTES_PER_PAGE) = some emptyDir ∧
      (emptyDir (0 % NR_PTES_PER_PAGE)).valid = false ∧
      w10s.mapcounts ((emptyDir (0 % NR_PTES_PER_PAGE)).pfn) ≠ 0) ∧
    (∃ s2, free_page w10s 0 = some s2 ∧
      s2.mapcounts ((emptyDir (0 % NR_PTES_PER_PAGE)).pfn) =
        w10s.mapcounts ((emptyDir (0 % NR_PTES_PER_PAGE)).pfn) - 1 ∧
      (∀ f, f ≠ (emptyDir (0 % NR_PTES_PER_PAGE)).pfn →
        s2.mapcounts f = w10s.mapcounts f) ∧
      pteOf s2 0 = defaultPTE) :=
  ⟨⟨by decide, rfl, rfl, by decide⟩,
    free_page_ignores_valid w10s 0 emptyDir (by decide) rfl rfl (by decide)⟩

/-- C1 (the code breaks the claimed invariant): in the reachable state
`c1Trace` — obtained by `alloc_page(0, RW_READ|RW_WRITE)`,
`switch_process(1)` (a fork) and a write fault on vpn 0 handled for the
child — frame 0's reference count is 2 while only one valid PTE across
all processes has frame field 0: the COW copy in `handle_page_fault`
rewrites the faulting PTE to a fresh frame without decrementing the old
frame's count. -/
theorem refcount_invariant_broken :
    c1Trace.mapcounts 0 = 2 ∧ refCount c1Trace 0 = 1 := by
  decide

/-- C2 (the code breaks the fork-then-write scenario): after A's write
fault the old frame's count is still 2 (the claim requires 1), and B's
subsequent write fault — the old frame's count still being 2 — takes
the copy branch, moving B to fresh frame 2 instead of merely setting
B's writable bit. -/
theorem cow_fork_write_scenario_broken :
    c2AfterFork.mapcounts 0 = 2 ∧
    (handle_page_fault c2AtA 0 RW_WRITE).2 = true ∧
    c2AfterAFault.mapcounts 0 = 2 ∧
    c2AfterAFault.mapcounts 1 = 1 ∧
    (pteOf c2AfterAFault 0).pfn = 1 ∧
    (handle_page_fault c2AtB 0 RW_WRITE).2 = true ∧
    (pteOf c2AfterBFault 0).pfn = 2 ∧
    c2AfterBFault.mapcounts 2 = 1 ∧
    c2AfterBFault.mapcounts 0 = 2 := by
  decide

/-- C3: COW resolution for a valid PTE whose original permission
includes write.  With exactly one mapping on the frame, only the
writable bit is set (reference counts untouched) and the handler
returns true; with more than one mapping and a free frame `i`
available, frame `i` (free: count 0) has its count incremented, the PTE
is rewritten to frame `i` and made writable, the handler returns true
and the old frame's count is unchanged; with more than one mapping and
no free frame, the handler returns false. -/
theorem handle_page_fault_cow (s : VMState) (vpn ti : Nat) (d : PteDir)
    (h1 : s.ptbr = some ti)
    (h2 : (s.procs.getD ti emptyProcess).pagetable (vpn / NR_PTES_PER_PAGE) = some d)
    (h3 : (d (vpn % NR_PTES_PER_PAGE)).valid = true)
    (h4 : (d (vpn % NR_PTES_PER_PAGE)).priv &&& RW_WRITE ≠ 0) :
    (s.mapcounts (d (vpn % NR_PTES_PER_PAGE)).pfn = 1 →
      handle_page_fault s vpn RW_WRITE =
        ({ s with
            procs := s.procs.set ti
              { s.procs.getD ti emptyProcess with
                  pagetable := updFn (s.procs.getD ti emptyProcess).pagetable
                    (vpn / NR_PTES_PER_PAGE)
                    (some (updFn d (vpn % NR_PTES_PER_PAGE)
                      { d (vpn % NR_PTES_PER_PAGE) with writable := true })) } },
          true)) ∧
    (∀ i, s.mapcounts (d (vpn % NR_PTES_PER_PAGE)).pfn > 1 →
      findFreeBelow s.mapcounts NR_PAGEFRAMES = some i →
      s.mapcounts i = 0 ∧
      handle_page_fault s vpn RW_WRITE =
        ({ s with
            mapcounts := bump s.mapcounts i
            procs := s.procs.set ti
              { s.procs.getD ti emptyProcess with
                  pagetable := updFn (s.procs.getD ti emptyProcess).pagetable
                    (vpn / NR_PTES_PER_PAGE)
                    (some (updFn d (vpn % NR_PTES_PER_PAGE)
                      { d (vpn % NR_PTES_PER_PAGE) with
                          writable := true, pfn := i })) } },
          true) ∧
      (handle_page_fault s vpn RW_WRITE).1.mapcounts
          (d (vpn % NR_PTES_PER_PAGE)).pfn =
        s.mapcounts (d (vpn % NR_PTES_PER_PAGE)).pfn) ∧
    (s.mapcounts (d (vpn % NR_PTES_PER_PAGE)).pfn > 1 →
      findFreeBelow s.mapcounts NR_PAGEFRAMES = none →
      handle_page_fault s vpn RW_WRITE = (s, false)) := by
  have h2' : (s.procs[ti]?.getD emptyProcess).pagetable
      (vpn / NR_PTES_PER_PAGE) = some d := by
    simpa [List.getD_eq_getElem?_getD] using h2
  have hpriv : ¬ (d (vpn % NR_PTES_PER_PAGE)).priv = RW_READ := by
    intro he
    rw [he] at h4
    exact h4 (by decide)
  refine ⟨?_, ?_, ?_⟩
  · intro hm
    simp [handle_page_fault, h1, h2', h3, hpriv, hm, List.getD_eq_getElem?_getD]
  · intro i hm hf
    have hz := (findFreeBelow_lt_and_zero _ _ _ hf).2
    have hne1 : ¬ s.mapcounts (d (vpn % NR_PTES_PER_PAGE)).pfn = 1 := by omega
    have heq : handle_page_fault s vpn RW_WRITE =
        ({ s with
            mapcounts := bump s.mapcounts i
            procs := s.procs.set ti
              { s.procs.getD ti emptyProcess with
                  pagetable := updFn (s.procs.getD ti emptyProcess).pagetable
                    (vpn / NR_PTES_PER_PAGE)
                    (some (updFn d (vpn % NR_PTES_PER_PAGE)
                      { d (vpn % NR_PTES_PER_PAGE) with
                          writable := true, pfn := i })) } },
          true) := by
      simp [handle_page_fault, h1, h2', h3, hpriv, hne1, hm, hf,
        List.getD_eq_getElem?_getD]
    have hpi : (d (vpn % NR_PTES_PER_PAGE)).pfn ≠ i := by
      intro he
      rw [he] at hm
      omega
    refine ⟨hz, heq, ?_⟩
    rw [heq]
    simp [bump, hpi]
  · intro hm hf
    have hne1 : ¬ s.mapcounts (d (vpn % NR_PTES_PER_PAGE)).pfn = 1 := by omega
    simp [handle_page_fault, h1, h2', h3, hpriv, hne1, hm, hf,
      List.getD_eq_getElem?_getD]

/-- Witness for C3: the exclusively-owned COW page of `w3s` is resolved
by setting the writable bit in place. -/
theorem handle_page_fault_cow_witness :
    (w3s.ptbr = some 0 ∧
      (w3s.procs.getD 0 emptyProcess).pagetable (0 / NR_PTES_PER_PAGE) = some w3dir ∧
      (w3dir (0 % NR_PTES_PER_PAGE)).valid = true ∧
      (w3dir (0 % NR_PTES_PER_PAGE)).priv &&& RW_WRITE ≠ 0) ∧
    w3s.mapcounts (w3dir (0 % NR_PTES_PER_PAGE)).pfn = 1 ∧
    handle_page_fault w3s 0 RW_WRITE =
      ({ w3s with
          procs := w3s.procs.set 0
            { w3s.procs.getD 0 emptyProcess with
                pagetable := updFn (w3s.procs.getD 0 emptyProcess).pagetable
                  (0 / NR_PTES_PER_PAGE)
                  (some (updFn w3dir (0 % NR_PTES_PER_PAGE)
                    { w3dir (0 % NR_PTES_PER_PAGE) with writable := true })) } },
        true) :=
  ⟨⟨rfl, rfl, rfl, by decide⟩, rfl,
    (handle_page_fault_cow w3s 0 0 w3dir rfl rfl rfl (by decide)).1 rfl⟩

theorem forkInner_old (mc : Nat → Nat) (od nd : PteDir) :
    ∀ n j, (forkInner mc od nd n).2.1 j =
      if j < n ∧ (od j).valid = true then { od j with writable := false }
      else od j := by
  intro n
  induction n with
  | zero =>
    intro j
    simp [forkInner]
  | succ n ih =>
    intro j
    have hop : (forkInner mc od nd n).2.1 n = od n := by
      rw [ih n]
      simp
    simp only [forkInner, hop]
    by_cases hv : (od n).valid = true
    · rw [if_pos hv]
      simp only [updFn]
      by_cases hj : j = n
      · subst hj
        rw [if_pos rfl, if_pos ⟨Nat.lt_succ_self j, hv⟩]
      · rw [if_neg hj, ih j]
        by_cases hjn : j < n ∧ (od j).valid = true
        · rw [if_pos hjn, if_pos ⟨Nat.lt_succ_of_lt hjn.1, hjn.2⟩]
        · have hneg : ¬ (j < n + 1 ∧ (od j).valid = true) := by
            rintro ⟨hc1, hc2⟩
            rcases Nat.lt_succ_iff_lt_or_eq.mp hc1 with hlt | heq
            · exact hjn ⟨hlt, hc2⟩
            · exact hj heq
          rw [if_neg hjn, if_neg hneg]
    · rw [if_neg hv, ih j]
      by_cases hjn : j < n ∧ (od j).valid = true
      · rw [if_pos hjn, if_pos ⟨Nat.lt_succ_of_lt hjn.1, hjn.2⟩]
      · have hneg : ¬ (j < n + 1 ∧ (od j).valid = true) := by
          rintro ⟨hc1, hc2⟩
          rcases Nat.lt_succ_iff_lt_or_eq.mp hc1 with hlt | heq
          · exact hjn ⟨hlt, hc2⟩
          · subst heq
            exact hv hc2
        rw [if_neg hjn, if_neg hneg]

theorem forkInner_new (mc : Nat → Nat) (od nd : PteDir) :
    ∀ n j, (forkInner mc od nd n).2.2 j =
      if j < n ∧ (od j).valid = true then
        { valid := true, writable := false, pfn := (od j).pfn
          priv := (od j).priv }
      else nd j := by
  intro n
  induction n with
  | zero =>
    intro j
    simp [forkInner]
  | succ n ih =>
    intro j
    have hop : (forkInner mc od nd n).2.1 n = od n := by
      rw [forkInner_old mc od nd n n]
      simp
    simp only [forkInner, hop]
    by_cases hv : (od n).valid = true
    · rw [if_pos hv]
      simp only [updFn]
      by_cases hj : j = n
      · subst hj
        rw [if_pos rfl, if_pos ⟨Nat.lt_succ_self j, hv⟩]
      · rw [if_neg hj, ih j]
        by_cases hjn : j < n ∧ (od j).valid = true
        · rw [if_pos hjn, if_pos ⟨Nat.lt_succ_of_lt hjn.1, hjn.2⟩]
        · have hneg : ¬ (j < n + 1 ∧ (od j).valid = true) := by
            rintro ⟨hc1, hc2⟩
            rcases Nat.lt_succ_iff_lt_or_eq.mp hc1 with hlt | heq
            · exact hjn ⟨hlt, hc2⟩
            · exact hj heq
          rw [if_neg hjn, if_neg hneg]
    · rw [if_neg hv, ih j]
      by_cases hjn : j < n ∧ (od j).valid = true
      · rw [if_pos hjn, if_pos ⟨Nat.lt_succ_of_lt hjn.1, hjn.2⟩]
      · have hneg : ¬ (j < n + 1 ∧ (od j).valid = true) := by
          rintro ⟨hc1, hc2⟩
          rcases Nat.lt_succ_iff_lt_or_eq.mp hc1 with hlt | heq
          · exact hjn ⟨hlt, hc2⟩
          · subst heq
            exact hv hc2
        rw [if_neg hjn, if_neg hneg]

theorem forkInner_mc (mc : Nat → Nat) (od nd : PteDir) :
    ∀ n f, (forkInner mc od nd n).1 f = mc f + countDirBelow od f n := by
  intro n
  induction n with
  | zero =>
    intro f
    simp [forkInner, countDirBelow]
  | succ n ih =>
    intro f
    have hop : (forkInner mc od nd n).2.1 n = od n := by
      rw [forkInner_old mc od nd n n]
      simp
    simp only [forkInner, hop]
    by_cases hv : (od n).valid = true
    · rw [if_pos hv]
      simp only [bump]
      rw [countDirBelow]
      by_cases hf : f = (od n).pfn
      · rw [if_pos hf, ih f, if_pos ⟨hv, hf.symm⟩]
        omega
      · rw [if_neg hf, ih f, if_neg (fun hc => hf hc.2.symm)]
        omega
    · rw [if_neg hv, ih f, countDirBelow, if_neg (fun hc => hv hc.1)]
      omega

set_option maxHeartbeats 1000000 in
theorem forkOuter_ge (mc : Nat → Nat) (opt npt : Pagetable) (garb : Nat → PteDir) :
    ∀ n i, n ≤ i →
      (forkOuter mc opt npt garb n).2.1 i = opt i ∧
      (forkOuter mc opt npt garb n).2.2 i = npt i := by
  intro n
  induction n with
  | zero =>
    intro i _
    exact ⟨rfl, rfl⟩
  | succ n ih =>
    intro i hi
    have hn : (forkOuter mc opt npt garb n).2.1 n = opt n := (ih n le_rfl).1
    have hi' : n ≤ i := Nat.le_of_succ_le hi
    have hne : i ≠ n := by omega
    rw [forkOuter, hn]
    cases hopt : opt n with
    | none => exact ih i hi'
    | some d =>
      constructor
      · simp only [updFn, if_neg hne]
        exact (ih i hi').1
      · simp only [updFn, if_neg hne]
        exact (ih i hi').2

set_option maxHeartbeats 1000000 in
theorem forkOuter_mc (mc : Nat → Nat) (opt npt : Pagetable) (garb : Nat → PteDir) :
    ∀ n f, (forkOuter mc opt npt garb n).1 f = mc f + countPTBelow opt f n := by
  intro n
  induction n with
  | zero =>
    intro f
    simp [forkOuter, countPTBelow]
  | succ n ih =>
    intro f
    have hn : (forkOuter mc opt npt garb n).2.1 n = opt n :=
      (forkOuter_ge mc opt npt garb n n le_rfl).1
    rw [forkOuter, hn]
    cases hopt : opt n with
    | none =>
      rw [ih f, countPTBelow, hopt]
      show mc f + countPTBelow opt f n = mc f + (countPTBelow opt f n + 0)
      omega
    | some d =>
      rw [forkInner_mc, ih f, countPTBelow, hopt]
      show mc f + countPTBelow opt f n + countDirBelow d f NR_PTES_PER_PAGE =
        mc f + (countPTBelow opt f n + countDirBelow d f NR_PTES_PER_PAGE)
      omega

set_option maxHeartbeats 1000000 in
theorem forkOuter_slot_absent (mc : Nat → Nat) (opt npt : Pagetable)
    (garb : Nat → PteDir) :
    ∀ n i, i < n → opt i = none →
      (forkOuter mc opt npt garb n).2.1 i = opt i ∧
      (forkOuter mc opt npt garb n).2.2 i = npt i := by
  intro n
  induction n with
  | zero =>
    intro i hi
    omega
  | succ n ih =>
    intro i hi hnone
    have hn : (forkOuter mc opt npt garb n).2.1 n = opt n :=
      (forkOuter_ge mc opt npt garb n n le_rfl).1
    rw [forkOuter, hn]
    rcases Nat.lt_succ_iff_lt_or_eq.mp hi with hlt | heq
    · cases hopt : opt n with
      | none => exact ih i hlt hnone
      | some d =>
        have hne : i ≠ n := by omega
        constructor
        · simp only [updFn, if_neg hne]
          exact (ih i hlt hnone).1
        · simp only [updFn, if_neg hne]
          exact (ih i hlt hnone).2
    · subst heq
      rw [hnone]
      show (forkOuter mc opt npt garb i).2.1 i = none ∧
        (forkOuter mc opt npt garb i).2.2 i = npt i
      rw [(forkOuter_ge mc opt npt garb i i le_rfl).1,
        (forkOuter_ge mc opt npt garb i i le_rfl).2]
      exact ⟨hnone, rfl⟩

set_option maxHeartbeats 1000000 in
theorem forkOuter_slot_present (mc : Nat → Nat) (opt npt : Pagetable)
    (garb : Nat → PteDir) :
    ∀ n i d, i < n → opt i = some d →
      (∃ pd2, (forkOuter mc opt npt garb n).2.1 i = some pd2 ∧
        ∀ j, pd2 j =
          if j < NR_PTES_PER_PAGE ∧ (d j).valid = true then
            { d j with writable := false }
          else d j) ∧
      (∃ cd, (forkOuter mc opt npt garb n).2.2 i = some cd ∧
        ∀ j, cd j =
          if j < NR_PTES_PER_PAGE ∧ (d j).valid = true then
            { valid := true, writable := false, pfn := (d j).pfn
              priv := (d j).priv }
          else garb i j) := by
  intro n
  induction n with
  | zero =>
    intro i d hi
    omega
  | succ n ih =>
    intro i d hi hsome
    have hn : (forkOuter mc opt npt garb n).2.1 n = opt n :=
      (forkOuter_ge mc opt npt garb n n le_rfl).1
    rw [forkOuter, hn]
    rcases Nat.lt_succ_iff_lt_or_eq.mp hi with hlt | heq
    · cases hopt : opt n with
      | none => exact ih i d hlt hsome
      | some d' =>
        have hne : i ≠ n := by omega
        rcases ih i d hlt hsome with ⟨⟨pd2, hpd, hpdj⟩, ⟨cd, hcd, hcdj⟩⟩
        constructor
        · refine ⟨pd2, ?_, hpdj⟩
          simp only [updFn, if_neg hne]
          exact hpd
        · refine ⟨cd, ?_, hcdj⟩
          simp only [updFn, if_neg hne]
          exact hcd
    · subst heq
      rw [hsome]
      constructor
      · refine ⟨(forkInner (forkOuter mc opt npt garb i).1 d (garb i)
          NR_PTES_PER_PAGE).2.1, ?_, ?_⟩
        · simp [updFn]
        · intro j
          rw [forkInner_old]
      · refine ⟨(forkInner (forkOuter mc opt npt garb i).1 d (garb i)
          NR_PTES_PER_PAGE).2.2, ?_, ?_⟩
        · simp [updFn]
        · intro j
          rw [forkInner_new]

/-- C4 (counterexample to the claim as stated): the fork never writes
the child's directory slot when the parent's slot is absent, so the
child does not mirror the parent's sparsity: with malloc'd contents
`w4garbPT`/`w4garbDir`, the parent's slot 1 is absent yet the forked
child's slot 1 is present and even holds a valid-looking garbage
mapping of frame 7. -/
theorem switch_process_fork_counterexample :
    (curProc w4s).pagetable 1 = none ∧
    findInQueue w4s.procs 9 w4s.queue = none ∧
    (((switch_process w4s 9 w4garbPT (fun _ => w4garbDir)).procs.getD
        w4s.procs.length emptyProcess).pagetable 1).isSome = true ∧
    ((((switch_process w4s 9 w4garbPT (fun _ => w4garbDir)).procs.getD
        w4s.procs.length emptyProcess).pagetable 1).getD emptyDir 0).valid
      = true ∧
    ((((switch_process w4s 9 w4garbPT (fun _ => w4garbDir)).procs.getD
        w4s.procs.length emptyProcess).pagetable 1).getD emptyDir 0).pfn
      = 7 :=
  ⟨rfl, rfl, rfl, rfl, rfl⟩

/-- C4 (amended): when `switch_process(pid)` finds no process with
`pid` in the ready queue it forks the current process, for every
possible contents `garbPT`/`garb` of the uninitialised malloc'd child
tables: the child gets, for every present directory slot and every
valid PTE in it, a PTE with the same frame, the same
original-permission tag, `valid = true` and `writable` forced to false
in both the parent's and the child's copy; every duplicated mapping
increments its frame's reference count exactly once (so each frame's
count grows by the number of valid parent PTEs mapping it); the fork
writes nothing for invalid parent entries or absent parent slots — the
child's table there retains the indeterminate malloc'd contents, so
the parent's sparsity is not guaranteed; the child is appended to the
ready queue and `current` and the page-table base register switch to
it. -/
theorem switch_process_fork (s : VMState) (pid : Nat)
    (garbPT : Pagetable) (garb : Nat → PteDir)
    (hcur : s.cur < s.procs.length)
    (h : findInQueue s.procs pid s.queue = none) :
    (switch_process s pid garbPT garb).cur = s.procs.length ∧
    (switch_process s pid garbPT garb).ptbr = some s.procs.length ∧
    (switch_process s pid garbPT garb).queue = s.queue ++ [s.procs.length] ∧
    ((switch_process s pid garbPT garb).procs.getD s.procs.length
      emptyProcess).pid = pid ∧
    (∀ f, (switch_process s pid garbPT garb).mapcounts f =
      s.mapcounts f + countPTBelow (curProc s).pagetable f NR_PTES_PER_PAGE) ∧
    (∀ i, i < NR_PTES_PER_PAGE → (curProc s).pagetable i = none →
      ((switch_process s pid garbPT garb).procs.getD s.procs.length
        emptyProcess).pagetable i = garbPT i) ∧
    (∀ i, i < NR_PTES_PER_PAGE → ∀ d, (curProc s).pagetable i = some d →
      ∃ cd pd2,
        ((switch_process s pid garbPT garb).procs.getD s.procs.length
          emptyProcess).pagetable i = some cd ∧
        ((switch_process s pid garbPT garb).procs.getD s.cur
          emptyProcess).pagetable i = some pd2 ∧
        ∀ j, j < NR_PTES_PER_PAGE →
          ((d j).valid = true →
            cd j = { valid := true, writable := false, pfn := (d j).pfn
                     priv := (d j).priv } ∧
            pd2 j = { d j with writable := false }) ∧
          ((d j).valid = false →
            cd j = garb i j ∧ pd2 j = d j)) := by
  have hsw : switch_process s pid garbPT garb =
      { mapcounts := (forkOuter s.mapcounts (curProc s).pagetable
          garbPT garb NR_PTES_PER_PAGE).1
        procs := (s.procs.set s.cur
            { curProc s with
                pagetable := (forkOuter s.mapcounts (curProc s).pagetable
                  garbPT garb NR_PTES_PER_PAGE).2.1 }) ++
          [{ pid := pid
             pagetable := (forkOuter s.mapcounts (curProc s).pagetable
               garbPT garb NR_PTES_PER_PAGE).2.2 }]
        cur := s.procs.length
        ptbr := some s.procs.length
        queue := s.queue ++ [s.procs.length] } := by
    rw [switch_process, h]
  have hchild : (switch_process s pid garbPT garb).procs.getD
      s.procs.length emptyProcess =
      { pid := pid
        pagetable := (forkOuter s.mapcounts (curProc s).pagetable
          garbPT garb NR_PTES_PER_PAGE).2.2 } := by
    rw [hsw]
    rw [show s.procs.length = (s.procs.set s.cur
        { curProc s with
            pagetable := (forkOuter s.mapcounts (curProc s).pagetable
              garbPT garb NR_PTES_PER_PAGE).2.1 }).length by simp]
    exact getD_append_singleton _ _ _
  have hpar : (switch_process s pid garbPT garb).procs.getD s.cur
      emptyProcess =
      { curProc s with
          pagetable := (forkOuter s.mapcounts (curProc s).pagetable
            garbPT garb NR_PTES_PER_PAGE).2.1 } := by
    rw [hsw]
    exact getD_set_append s.procs s.cur hcur _ _ _
  refine ⟨?_, ?_, ?_, ?_, ?_, ?_, ?_⟩
  · rw [hsw]
  · rw [hsw]
  · rw [hsw]
  · rw [hchild]
  · intro f
    rw [hsw]
    exact forkOuter_mc s.mapcounts (curProc s).pagetable garbPT garb
      NR_PTES_PER_PAGE f
  · intro i hi hnone
    rw [hchild]
    show (forkOuter s.mapcounts (curProc s).pagetable garbPT garb
      NR_PTES_PER_PAGE).2.2 i = garbPT i
    exact (forkOuter_slot_absent s.mapcounts (curProc s).pagetable
      garbPT garb NR_PTES_PER_PAGE i hi hnone).2
  · intro i hi d hd
    rcases forkOuter_slot_present s.mapcounts (curProc s).pagetable
      garbPT garb NR_PTES_PER_PAGE i d hi hd with
      ⟨⟨pd2, hpd, hpdj⟩, ⟨cd, hcd, hcdj⟩⟩
    refine ⟨cd, pd2, ?_, ?_, ?_⟩
    · rw [hchild]
      exact hcd
    · rw [hpar]
      exact hpd
    · intro j hj
      constructor
      · intro hv
        constructor
        · rw [hcdj j, if_pos ⟨hj, hv⟩]
        · rw [hpdj j, if_pos ⟨hj, hv⟩]
      · intro hv
        have hc : ¬ (j < NR_PTES_PER_PAGE ∧ (d j).valid = true) := by
          rintro ⟨_, hvv⟩
          rw [hv] at hvv
          cases hvv
        constructor
        · rw [hcdj j, if_neg hc]
        · rw [hpdj j, if_neg hc]

/-- Witness for C4 (amended): forking `w4s` with the unused pid 9 and
the concrete malloc'd contents `w4garbPT`/`w4garbDir`. -/
theorem switch_process_fork_witness :
    (w4s.cur < w4s.procs.length ∧
      findInQueue w4s.procs 9 w4s.queue = none) ∧
    ((switch_process w4s 9 w4garbPT (fun _ => w4garbDir)).cur =
        w4s.procs.length ∧
      (switch_process w4s 9 w4garbPT (fun _ => w4garbDir)).ptbr =
        some w4s.procs.length ∧
      (switch_process w4s 9 w4garbPT (fun _ => w4garbDir)).queue =
        w4s.queue ++ [w4s.procs.length] ∧
      ((switch_process w4s 9 w4garbPT (fun _ => w4garbDir)).procs.getD
        w4s.procs.length emptyProcess).pid = 9 ∧
      (∀ f, (switch_process w4s 9 w4garbPT (fun _ => w4garbDir)).mapcounts f =
        w4s.mapcounts f +
          countPTBelow (curProc w4s).pagetable f NR_PTES_PER_PAGE) ∧
      (∀ i, i < NR_PTES_PER_PAGE → (curProc w4s).pagetable i = none →
        ((switch_process w4s 9 w4garbPT (fun _ => w4garbDir)).procs.getD
          w4s.procs.length emptyProcess).pagetable i = w4garbPT i) ∧
      (∀ i, i < NR_PTES_PER_PAGE → ∀ d, (curProc w4s).pagetable i = some d →
        ∃ cd pd2,
          ((switch_process w4s 9 w4garbPT (fun _ => w4garbDir)).procs.getD
            w4s.procs.length emptyProcess).pagetable i = some cd ∧
          ((switch_process w4s 9 w4garbPT (fun _ => w4garbDir)).procs.getD
            w4s.cur emptyProcess).pagetable i = some pd2 ∧
          ∀ j, j < NR_PTES_PER_PAGE →
            ((d j).valid = true →
              cd j = { valid := true, writable := false, pfn := (d j).pfn
                       priv := (d j).priv } ∧
              pd2 j = { d j with writable := false }) ∧
            ((d j).valid = false →
              cd j = (fun _ => w4garbDir) i j ∧ pd2 j = d j))) :=
  ⟨⟨by decide, rfl⟩,
    switch_process_fork w4s 9 w4garbPT (fun _ => w4garbDir) (by decide) rfl⟩
